import Mathlib

/-!
Shallow embedding of the doctor-crawler repository's extraction and
aggregation core (src/main.py `AndalusiaHealthCrawler.extract_doctor_info`
and src/analyze.py `analyze_doctors`).

A markup fragment (one `div.list-item-content` container) is modelled as a
record of the texts/attributes that the per-field selector lookups would
find: `none` models a selector that matches nothing, which in the source
makes `find_element` raise; `find_elements` results are plain lists.
Python string methods used by the source (`strip`, `split`, `replace`,
`startswith`, `in`, `strip('()')`, `float`, `int`) are modelled by
executable functions over character lists.
-/

/-! ### Models of the Python string primitives used by the source -/

/-- Models Python `str.strip()` (no argument): remove leading and trailing
whitespace. -/
def pyStrip (s : String) : String :=
  String.mk (((s.toList.dropWhile Char.isWhitespace).reverse.dropWhile
    Char.isWhitespace).reverse)

/-- `seqStarts hay pat` is true when `hay` begins with `pat`. -/
def seqStarts : List Char → List Char → Bool
  | _, [] => true
  | [], _ :: _ => false
  | a :: s, b :: p => a == b && seqStarts s p

/-- `seqContains hay pat` is true when `pat` occurs contiguously in `hay`. -/
def seqContains : List Char → List Char → Bool
  | [], pat => pat.isEmpty
  | a :: t, pat => seqStarts (a :: t) pat || seqContains t pat

/-- Models Python `pat in hay` on strings (substring containment). -/
def strContains (hay pat : String) : Bool :=
  seqContains hay.toList pat.toList

/-- Models Python `s.startswith(pre)`. -/
def pyStartsWith (s pre : String) : Bool :=
  seqStarts s.toList pre.toList

/-- Fuel-indexed worker for `pyReplace`; the fuel is the haystack length,
which suffices because each step consumes at least one character. -/
def replaceFuel (pat repl : List Char) : Nat → List Char → List Char
  | _, [] => []
  | 0, l => l
  | n + 1, a :: t =>
    if !pat.isEmpty && seqStarts (a :: t) pat then
      repl ++ replaceFuel pat repl n (List.drop (pat.length - 1) t)
    else
      a :: replaceFuel pat repl n t

/-- Models Python `s.replace(pat, repl)` for a non-empty pattern: every
occurrence of `pat` is replaced by `repl`, scanning left to right.  (The
source only ever calls it with the fixed pattern "tel:".) -/
def pyReplace (s pat repl : String) : String :=
  String.mk (replaceFuel pat.toList repl.toList s.toList.length s.toList)

/-- Models Python `s.split(c)[0]`: everything before the first occurrence
of the separator, the whole string when the separator is absent. -/
def pySplitHead (s : String) (c : Char) : String :=
  String.mk (s.toList.takeWhile (fun a => a != c))

def isParenChar (c : Char) : Bool := c == '(' || c == ')'

/-- Models Python `s.strip('()')`: remove any leading and trailing
parenthesis characters. -/
def pyStripParens (s : String) : String :=
  String.mk (((s.toList.dropWhile isParenChar).reverse.dropWhile
    isParenChar).reverse)

/-- Decimal value of a digit list (most significant first). -/
def digitsVal (ds : List Char) : Nat :=
  ds.foldl (fun n c => 10 * n + (c.toNat - 48)) 0

def applySign (neg : Bool) (q : Rat) : Rat := if neg then -q else q

/-- Models Python `float(s)` on the plain decimal literals the source can
meet (optional surrounding whitespace, optional sign, digits with at most
one decimal point); anything else is a `ValueError`, modelled as `none`.
Exponent/`inf`/`nan` forms never arise from the modelled inputs. -/
def parseFloat (s : String) : Option Rat :=
  let body := (pyStrip s).toList
  let signed : Bool × List Char :=
    match body with
    | '-' :: rest => (true, rest)
    | '+' :: rest => (false, rest)
    | l => (false, l)
  let neg := signed.1
  let mag := signed.2
  let intPart := mag.takeWhile (fun c => c != '.')
  let rest := mag.dropWhile (fun c => c != '.')
  match rest with
  | [] =>
    if !intPart.isEmpty && intPart.all Char.isDigit then
      some (applySign neg (digitsVal intPart : Rat))
    else none
  | _ :: fracPart =>
    if fracPart.all (fun c => c != '.') &&
        (!intPart.isEmpty || !fracPart.isEmpty) &&
        intPart.all Char.isDigit && fracPart.all Char.isDigit then
      some (applySign neg
        ((digitsVal intPart : Rat) + (digitsVal fracPart : Rat) / ((10 : Rat) ^ fracPart.length)))
    else none

/-- Models Python `int(s)`: optional surrounding whitespace, optional
sign, one or more digits; anything else is a `ValueError` (`none`). -/
def parseInt (s : String) : Option Int :=
  let body := (pyStrip s).toList
  let signed : Bool × List Char :=
    match body with
    | '-' :: rest => (true, rest)
    | '+' :: rest => (false, rest)
    | l => (false, l)
  let neg := signed.1
  let mag := signed.2
  if !mag.isEmpty && mag.all Char.isDigit then
    some (if neg then -(digitsVal mag : Int) else (digitsVal mag : Int))
  else none

/-! ### Data model (src/main.py `Doctor` dataclass, lines 24-37) -/

/-- The `Doctor` dataclass.  `Optional[float]`/`Optional[int]` fields are
`Option Rat`/`Option Int`; the dataclass defaults (`rating = 0`,
`rating_count = 0`) are mirrored although `extract_doctor_info` always
passes every field explicitly. -/
structure Doctor where
  name : String
  specialty : Option String := none
  profile_url : Option String := none
  image_url : Option String := none
  location : Option String := none
  phone : Option String := none
  has_multiple_locations : Bool := false
  is_employed_provider : Bool := false
  is_accepting_new_patients : Bool := false
  rating : Option Rat := some 0
  rating_count : Option Int := some 0
  deriving Repr, DecidableEq

/-- What the nested rating lookups can find inside the
`div.loyal-stars[itemprop='aggregateRating']` container: the text of the
`ratingValue` span and of the `ratingCount` span, `none` when the
corresponding `find_element` raises. -/
structure RatingNode where
  valueText : Option String
  countText : Option String
  deriving Repr, DecidableEq

/-- One `div.list-item-content` container, modelled as the outcome of each
selector lookup the source performs on it.  `none` models a selector that
matches nothing (in Selenium, `find_element` raises); `badgeTexts` models
the `find_elements` result (a possibly empty list never raises). -/
structure Fragment where
  nameText : Option String
  urlHref : Option String
  specialtyText : Option String
  imageSrc : Option String
  multiLocationText : Option String
  facilityText : Option String
  addressText : Option String
  phoneHref : Option String
  badgeTexts : List String
  ratingNode : Option RatingNode
  deriving Repr, DecidableEq

/-! ### The extractor (src/main.py lines 79-227) -/

def BASE_URL : String := "https://www.andalusiahealth.com"

/-- main.py lines 94-96: `url = url_element.get_attribute('href')`, then
prepend `BASE_URL` when the href is truthy and not already absolute. -/
def normalizeUrl (href : String) : String :=
  if href ≠ "" ∧ ¬ pyStartsWith href "http" then BASE_URL ++ href else href

/-- main.py lines 116-122: the multiple-location probe, guarded by its own
inner `try`; a missing element or absent marker leaves the flag `False`. -/
def extractMultiLoc (f : Fragment) : Bool :=
  match f.multiLocationText with
  | some t => strContains t "+1 other location"
  | none => false

/-- main.py lines 112-141 (minus the inner multi-location probe): the
location composite.  Both `find_element` calls sit inside one `try`, with
`location` assigned only after both succeed, so a missing facility element
or a missing address element leaves `location = None`; only when both
elements exist is the truthiness chain over the stripped texts reached. -/
def extractLocation (f : Fragment) : Option String :=
  match f.facilityText with
  | none => none
  | some ft =>
    match f.addressText with
    | none => none
    | some ad =>
      let facility := pyStrip ft
      let street := pyStrip ad
      if facility ≠ "" ∧ street ≠ "" then some (facility ++ ": " ++ street)
      else if street ≠ "" then some street
      else if facility ≠ "" then some facility
      else none

/-- One iteration of the badge loop (main.py lines 156-161): strip the
badge text and test the two substring markers independently. -/
def badgeStep (s : Bool × Bool) (t : String) : Bool × Bool :=
  let bt := pyStrip t
  (s.1 || strContains bt "Employed Provider",
   s.2 || strContains bt "Accepts New Patients")

/-- A single execution of the badge block: flags start `False`, one pass
over the badge elements. -/
def extractBadgesSingle (texts : List String) : Bool × Bool :=
  texts.foldl badgeStep (false, false)

/-- main.py lines 151-179: the badge block appears twice, verbatim; the
second block resets both flags to `False` and recomputes them over the
same `find_elements` result, discarding the first block's outcome. -/
def extractBadges (texts : List String) : Bool × Bool :=
  let _firstBlock := texts.foldl badgeStep (false, false)
  texts.foldl badgeStep (false, false)

/-- main.py lines 189-193: the rating-value stage — value-node lookup,
then `float(rating_text.split('/')[0].strip())`; `none` when the lookup
or `float()` raises. -/
def parseRatingValue (rn : RatingNode) : Option Rat :=
  match rn.valueText with
  | none => none
  | some vt => parseFloat (pyStrip (pySplitHead vt '/'))

/-- main.py lines 196-200: the rating-count stage — count-node lookup,
then `int(count_text.strip('()'))`; `none` when the lookup or `int()`
raises. -/
def parseRatingCount (rn : RatingNode) : Option Int :=
  match rn.countText with
  | none => none
  | some ct => parseInt (pyStripParens (pyStrip ct))

/-- main.py lines 181-204: the rating chain, all inside one `try`.
`rating` and `rating_count` start as `None`.  A failure at the container
lookup, the value-node lookup or `float()` occurs before `rating` is
assigned, so the `except` leaves both `None`.  A failure at the
count-node lookup or `int()` occurs after `rating` was assigned, so the
`except` leaves the parsed rating in place and only `rating_count` is
`None` — exactly `(some r, parseRatingCount rn)`. -/
def ratingOfNode (rn : RatingNode) : Option Rat × Option Int :=
  match parseRatingValue rn with
  | none => (none, none)
  | some r => (some r, parseRatingCount rn)

def extractRating (f : Fragment) : Option Rat × Option Int :=
  match f.ratingNode with
  | none => (none, none)
  | some rn => ratingOfNode rn

/-- main.py lines 87-219: build one candidate `Doctor` from one container.
The name, URL and specialty lookups (lines 89, 93, 99) are not wrapped in
any inner `try`: if any of the three raises, the outer `except` (line 223)
discards the fragment, modelled as `none`.  (The `if name_element else`
ternaries on those lines are unreachable, since `find_element` raises
rather than returning a null element, and are therefore not modelled.)
All remaining sub-extractions are guarded and cannot fail. -/
def extractOne (f : Fragment) : Option Doctor :=
  match f.nameText with
  | none => none
  | some nameEl =>
    let name := pyStrip nameEl
    match f.urlHref with
    | none => none
    | some href =>
      let url := normalizeUrl href
      match f.specialtyText with
      | none => none
      | some sp =>
        let specialty := pyStrip sp
        let flags := extractBadges f.badgeTexts
        let rr := extractRating f
        some { name := name,
               specialty := some specialty,
               profile_url := some url,
               image_url := f.imageSrc,
               location := extractLocation f,
               phone := f.phoneHref.map (fun h => pyReplace h "tel:" ""),
               has_multiple_locations := extractMultiLoc f,
               is_employed_provider := flags.1,
               is_accepting_new_patients := flags.2,
               rating := rr.1,
               rating_count := rr.2 }

/-- main.py lines 221-222: `if name and name not in [d.name for d in
doctors]: doctors.append(doctor)` — append the candidate only when its
name is truthy (non-empty) and not already taken in this batch. -/
def dedupStep (acc : List Doctor) (d : Doctor) : List Doctor :=
  if d.name ≠ "" ∧ d.name ∉ acc.map Doctor.name then acc ++ [d] else acc

/-- One loop iteration of `extract_doctor_info`: a fragment that raised
contributes nothing (`continue`); otherwise the dedup check runs. -/
def extractStep (acc : List Doctor) (f : Fragment) : List Doctor :=
  match extractOne f with
  | none => acc
  | some d => dedupStep acc d

/-- main.py lines 79-227: `extract_doctor_info` over the list of
containers. -/
def extract_doctor_info (fs : List Fragment) : List Doctor :=
  fs.foldl extractStep []

/-- The candidate records: one per fragment that survives to the
`Doctor(...)` construction (line 207), in input order, before the dedup
check. -/
def candidates (fs : List Fragment) : List Doctor :=
  fs.filterMap extractOne

/-! ### The aggregator (src/analyze.py `analyze_doctors`, lines 13-94) -/

/-- analyze.py line 29: `doc.rating and doc.rating > 0`.  Python
truthiness makes `None` and `0` falsy, so the net test is: rating present
and strictly positive. -/
def ratingTruthyPos (r : Option Rat) : Bool :=
  match r with
  | some v => decide (0 < v)
  | none => false

/-- A `{"name": ..., "profile_url": ...}` entry of the report
(analyze.py lines 75-80 and 83-87). -/
structure ReportEntry where
  name : String
  profile_url : Option String
  deriving Repr, DecidableEq

/-- The `report_data` structure built in analyze.py lines 62-87. -/
structure Report where
  total_doctors : Nat
  doctors_with_ratings : Nat
  shared_phone_numbers : Nat
  doctors_with_multiple_locations : Nat
  shared_phone_groups : List (String × List ReportEntry)
  multi_location_records : List ReportEntry
  deriving Repr, DecidableEq

/-- Python `a / b` on numbers: raises `ZeroDivisionError` when `b = 0`. -/
def pyDiv (a b : Rat) : Except String Rat :=
  if b = 0 then Except.error "ZeroDivisionError" else Except.ok (a / b)

/-- Append `d` under key `p` in an insertion-ordered association list,
modelling `defaultdict(list)` indexing into a Python dict (which preserves
first-insertion key order). -/
def insertPhone (m : List (String × List Doctor)) (p : String) (d : Doctor) :
    List (String × List Doctor) :=
  match m with
  | [] => [(p, [d])]
  | (q, ds) :: rest =>
    if q = p then (q, ds ++ [d]) :: rest else (q, ds) :: insertPhone rest p d

/-- One iteration of the phone-grouping loop (analyze.py lines 34-36):
`if doctor.phone:` — only a truthy (present and non-empty) phone is
grouped. -/
def phoneStep (m : List (String × List Doctor)) (d : Doctor) :
    List (String × List Doctor) :=
  match d.phone with
  | some p => if p ≠ "" then insertPhone m p d else m
  | none => m

/-- analyze.py lines 33-36: `phone_map`. -/
def phoneMap (doctors : List Doctor) : List (String × List Doctor) :=
  doctors.foldl phoneStep []

/-- analyze.py lines 38-40: `doctors_with_shared_phones` — keep only the
groups with more than one member. -/
def sharedPhoneGroupsOf (doctors : List Doctor) : List (String × List Doctor) :=
  (phoneMap doctors).filter (fun g => 1 < g.2.length)

def toEntry (d : Doctor) : ReportEntry :=
  { name := d.name, profile_url := d.profile_url }

/-- analyze.py lines 13-94, `analyze_doctors`, with the doctor list (the
`get_all_doctors()` result) as the explicit input.  The two logging lines
that divide by `total_doctors` (lines 30 and 50) are the only fallible
steps; each is modelled by a `pyDiv` whose quotient is discarded, exactly
as the logged percentage is.  The JSON dump (line 90) is I/O plumbing and
is not modelled; the returned `report_data` is. -/
def analyze_doctors (doctors : List Doctor) : Except String Report := do
  let total := doctors.length
  let rated := doctors.filter (fun d => ratingTruthyPos d.rating)
  let _ratedPercent ← pyDiv (rated.length : Rat) (total : Rat)
  let shared := sharedPhoneGroupsOf doctors
  let multi := doctors.filter (fun d => d.has_multiple_locations)
  let _multiPercent ← pyDiv (multi.length : Rat) (total : Rat)
  Except.ok
    { total_doctors := total,
      doctors_with_ratings := rated.length,
      shared_phone_numbers := shared.length,
      doctors_with_multiple_locations := multi.length,
      shared_phone_groups := shared.map (fun g => (g.1, g.2.map toEntry)),
      multi_location_records := multi.map toEntry }

/-! ### Definitions written from the spec's words, for the refinement
claims.  Each is deliberately structured independently of the source
embedding above, so that proving it equal to (or different from) the
source embedding is informative. -/

/-- Spec wording (§3 invariant, claim C6): keep, in order, the first
occurrence of each name; `seen` carries the names already kept. -/
def keepFirstAllByName (seen : List String) : List Doctor → List Doctor
  | [] => []
  | d :: rest =>
    if d.name ∉ seen then d :: keepFirstAllByName (d.name :: seen) rest
    else keepFirstAllByName seen rest

/-- The claim-C6 predicted output: candidates restricted to first
occurrences of each exact name. -/
def dedupFirstByName (ds : List Doctor) : List Doctor :=
  keepFirstAllByName [] ds

/-- Amended C6 wording: additionally drop candidates whose post-trim name
is empty. -/
def keepFirstByName (seen : List String) : List Doctor → List Doctor
  | [] => []
  | d :: rest =>
    if d.name ≠ "" ∧ d.name ∉ seen then d :: keepFirstByName (d.name :: seen) rest
    else keepFirstByName seen rest

/-- The amended-C6 predicted output. -/
def dedupFirstNonEmptyByName (ds : List Doctor) : List Doctor :=
  keepFirstByName [] ds

/-- First occurrence order of a list of phone values. -/
def firstOccur (l : List String) : List String :=
  l.foldl (fun acc p => if p ∈ acc then acc else acc ++ [p]) []

/-- All records whose key equals `p`, in input order. -/
def groupFor (keyOf : Doctor → Option String) (doctors : List Doctor) (p : String) :
    List Doctor :=
  doctors.filter (fun d => keyOf d = some p)

/-- Spec wording (§4.2): the partition of the records by key value,
ignoring records whose key is rejected by `keyOf`, keyed in
first-encountered order. -/
def specPartitionBy (keyOf : Doctor → Option String) (doctors : List Doctor) :
    List (String × List Doctor) :=
  (firstOccur (doctors.filterMap keyOf)).map (fun p => (p, groupFor keyOf doctors p))

/-- Claim C8's key function: ignore only records with an absent phone. -/
def phoneKeyClaim (d : Doctor) : Option String := d.phone

/-- Amended key function: ignore records with an absent or empty phone
(Python truthiness). -/
def phoneKeyTruthy (d : Doctor) : Option String :=
  match d.phone with
  | some p => if p ≠ "" then some p else none
  | none => none

/-- `sharedPhoneGroups` as claim C8 words it: partition by phone value
ignoring absent phones, keep groups of at least two members. -/
def claimSharedGroups (doctors : List Doctor) : List (String × List Doctor) :=
  (specPartitionBy phoneKeyClaim doctors).filter (fun g => 2 ≤ g.2.length)

/-- `sharedPhoneGroups` as the amended claim words it: also ignore empty
phones. -/
def specSharedGroups (doctors : List Doctor) : List (String × List Doctor) :=
  (specPartitionBy phoneKeyTruthy doctors).filter (fun g => 2 ≤ g.2.length)

/-! ### Concrete inputs used by the counterexamples and witnesses -/

/-- A fragment in which every selector lookup fails and there are no
badge elements. -/
def emptyFragment : Fragment :=
  { nameText := none, urlHref := none, specialtyText := none,
    imageSrc := none, multiLocationText := none, facilityText := none,
    addressText := none, phoneHref := none, badgeTexts := [],
    ratingNode := none }

/-- A fragment offering only the three unguarded elements (name, profile
link, specialty); every optional guarded sub-element is missing. -/
def fragBase : Fragment :=
  { emptyFragment with
    nameText := some "Dr. Jane Roe",
    urlHref := some "/provider/jane-roe",
    specialtyText := some "Cardiology" }

/-- The record `extractOne` produces from `fragBase`. -/
def recBase : Doctor :=
  { name := "Dr. Jane Roe",
    specialty := some "Cardiology",
    profile_url := some "https://www.andalusiahealth.com/provider/jane-roe",
    image_url := none, location := none, phone := none,
    has_multiple_locations := false, is_employed_provider := false,
    is_accepting_new_patients := false, rating := none, rating_count := none }

/-- A fragment carrying only a name: every optional sub-element of claim
C1's list (URL, specialty, image, location, phone, badges, rating) is
missing. -/
def fragNameOnly : Fragment :=
  { emptyFragment with nameText := some "Dr. Jane Roe" }

/-- A fully populated fragment whose name element is missing. -/
def fragNoName : Fragment :=
  { emptyFragment with
    urlHref := some "/provider/anon",
    specialtyText := some "Dermatology",
    imageSrc := some "https://img.example/anon.png",
    multiLocationText := some "+1 other location",
    facilityText := some "Clinic",
    addressText := some "5 Oak St",
    phoneHref := some "tel:555-0000",
    badgeTexts := ["Employed Provider"],
    ratingNode := some { valueText := some "4 / 5", countText := some "(9)" } }

/-- A fragment whose name element holds only whitespace, so the parsed
name trims to the empty string. -/
def fragBlankName : Fragment :=
  { fragBase with nameText := some "   " }

/-- A fragment with a street-address element but no facility element. -/
def fragAddrOnly : Fragment :=
  { fragBase with addressText := some "123 Main St" }

/-- A fragment whose rating container and value node parse, but whose
count node is missing. -/
def fragRatingPartial : Fragment :=
  { fragBase with
    ratingNode := some { valueText := some "4 / 5", countText := none } }

/-- A fragment whose rating text parses to 7, above the stated [0, 5]
range. -/
def fragRatingHigh : Fragment :=
  { fragBase with
    ratingNode := some { valueText := some "7 / 5", countText := some "(3)" } }

/-- A fragment whose rating text parses to -2, below the stated [0, 5]
range. -/
def fragRatingNeg : Fragment :=
  { fragBase with
    ratingNode := some { valueText := some "-2 / 5", countText := some "(9)" } }

/-- The record `extractOne` produces from `fragRatingNeg`. -/
def recRatingNeg : Doctor :=
  { recBase with rating := some (-2), rating_count := some 9 }

/-- A fragment in which every sub-element is present and well formed. -/
def fragFull : Fragment :=
  { nameText := some "  Dr. Alice Smith  ",
    urlHref := some "/provider/alice",
    specialtyText := some "Cardiology",
    imageSrc := some "https://img.example/alice.png",
    multiLocationText := some "Main clinic and +1 other location",
    facilityText := some "Andalusia Clinic",
    addressText := some "100 Main St",
    phoneHref := some "tel:555-1234",
    badgeTexts := ["Employed Provider", "Accepts New Patients"],
    ratingNode := some { valueText := some "4 / 5", countText := some "(194)" } }

/-- The record `extractOne` produces from `fragFull`. -/
def recFull : Doctor :=
  { name := "Dr. Alice Smith",
    specialty := some "Cardiology",
    profile_url := some "https://www.andalusiahealth.com/provider/alice",
    image_url := some "https://img.example/alice.png",
    location := some "Andalusia Clinic: 100 Main St",
    phone := some "555-1234",
    has_multiple_locations := true,
    is_employed_provider := true,
    is_accepting_new_patients := true,
    rating := some 4,
    rating_count := some 194 }

/-- Three stored records realising claim C8's worked example: two share
the phone "555-1111", one has "555-2222". -/
def docP1 : Doctor := { name := "Dr. A", phone := some "555-1111", rating := none, rating_count := none }

def docP2 : Doctor := { name := "Dr. B", phone := some "555-1111", rating := none, rating_count := none }

def docP3 : Doctor := { name := "Dr. C", phone := some "555-2222", rating := none, rating_count := none }

/-- Two stored records whose phone is present but empty (e.g. persisted
from a bare `tel:` link). -/
def docE1 : Doctor := { name := "Dr. D", phone := some "", rating := none, rating_count := none }

def docE2 : Doctor := { name := "Dr. E", phone := some "", rating := none, rating_count := none }

/-! ### Helper lemmas: the extractor -/

/-- If the name, URL and specialty elements are all found, `extractOne`
produces exactly this record. -/
lemma extractOne_eq_some (f : Fragment) (nt u st : String)
    (hn : f.nameText = some nt) (hu : f.urlHref = some u)
    (hs : f.specialtyText = some st) :
    extractOne f = some
      { name := pyStrip nt,
        specialty := some (pyStrip st),
        profile_url := some (normalizeUrl u),
        image_url := f.imageSrc,
        location := extractLocation f,
        phone := f.phoneHref.map (fun h => pyReplace h "tel:" ""),
        has_multiple_locations := extractMultiLoc f,
        is_employed_provider := (extractBadges f.badgeTexts).1,
        is_accepting_new_patients := (extractBadges f.badgeTexts).2,
        rating := (extractRating f).1,
        rating_count := (extractRating f).2 } := by
  unfold extractOne
  rw [hn, hu, hs]

/-- A failure of any of the three unguarded lookups discards the
fragment. -/
lemma extractOne_eq_none (f : Fragment)
    (h : f.nameText = none ∨ f.urlHref = none ∨ f.specialtyText = none) :
    extractOne f = none := by
  unfold extractOne
  rcases h with h | h | h
  · rw [h]
  · rw [h]
    cases f.nameText <;> rfl
  · rw [h]
    cases f.nameText <;> [rfl; (cases f.urlHref <;> rfl)]

/-- Inversion: a produced record determines that the three unguarded
lookups succeeded, and fixes every field of the record. -/
lemma extractOne_inv (f : Fragment) (d : Doctor) (h : extractOne f = some d) :
    ∃ nt u st, f.nameText = some nt ∧ f.urlHref = some u ∧
      f.specialtyText = some st ∧
      d = { name := pyStrip nt,
            specialty := some (pyStrip st),
            profile_url := some (normalizeUrl u),
            image_url := f.imageSrc,
            location := extractLocation f,
            phone := f.phoneHref.map (fun h => pyReplace h "tel:" ""),
            has_multiple_locations := extractMultiLoc f,
            is_employed_provider := (extractBadges f.badgeTexts).1,
            is_accepting_new_patients := (extractBadges f.badgeTexts).2,
            rating := (extractRating f).1,
            rating_count := (extractRating f).2 } := by
  cases hn : f.nameText with
  | none => rw [extractOne_eq_none f (Or.inl hn)] at h; exact absurd h (by simp)
  | some nt =>
    cases hu : f.urlHref with
    | none => rw [extractOne_eq_none f (Or.inr (Or.inl hu))] at h; exact absurd h (by simp)
    | some u =>
      cases hs : f.specialtyText with
      | none =>
        rw [extractOne_eq_none f (Or.inr (Or.inr hs))] at h; exact absurd h (by simp)
      | some st =>
        refine ⟨nt, u, st, rfl, rfl, rfl, ?_⟩
        rw [extractOne_eq_some f nt u st hn hu hs] at h
        exact (Option.some_injective _ h).symm

/-- The two verbatim badge blocks compute what a single block computes. -/
lemma extractBadges_eq_single (texts : List String) :
    extractBadges texts = extractBadgesSingle texts := rfl

/-- Unfolding equation: rating container missing. -/
lemma extractRating_node_none (f : Fragment) (h : f.ratingNode = none) :
    extractRating f = (none, none) := by
  unfold extractRating; rw [h]

/-- Unfolding equation: rating container found. -/
lemma extractRating_node_some (f : Fragment) (rn : RatingNode)
    (h : f.ratingNode = some rn) : extractRating f = ratingOfNode rn := by
  unfold extractRating; rw [h]

/-- Unfolding equation: rating container found, value stage failed. -/
lemma extractRating_value_none (f : Fragment) (rn : RatingNode)
    (h : f.ratingNode = some rn) (hv : parseRatingValue rn = none) :
    extractRating f = (none, none) := by
  rw [extractRating_node_some f rn h]; unfold ratingOfNode; rw [hv]

/-- Unfolding equation: rating container found, value stage parsed. -/
lemma extractRating_value_some (f : Fragment) (rn : RatingNode) (r : Rat)
    (h : f.ratingNode = some rn) (hv : parseRatingValue rn = some r) :
    extractRating f = (some r, parseRatingCount rn) := by
  rw [extractRating_node_some f rn h]; unfold ratingOfNode; rw [hv]

/-- When the rating value is absent, so is the count: the count is only
parsed after the value has been assigned. -/
lemma extractRating_count_none_of_rating_none (f : Fragment)
    (h : (extractRating f).1 = none) : (extractRating f).2 = none := by
  cases hr : f.ratingNode with
  | none => rw [extractRating_node_none f hr]
  | some rn =>
    cases hv : parseRatingValue rn with
    | none => rw [extractRating_value_none f rn hr hv]
    | some r => rw [extractRating_value_some f rn r hr hv] at h; exact absurd h (by simp)

/-! ### Helper lemmas: the in-batch dedup loop -/

lemma mem_dedupStep (acc : List Doctor) (d x : Doctor)
    (h : x ∈ dedupStep acc d) : x ∈ acc ∨ (x = d ∧ d.name ≠ "") := by
  unfold dedupStep at h
  split at h
  · rcases List.mem_append.mp h with h' | h'
    · exact Or.inl h'
    · rename_i hcond
      exact Or.inr ⟨List.mem_singleton.mp h', hcond.1⟩
  · exact Or.inl h

/-- Every record in the accumulated output of the extraction loop has a
non-empty name, provided the initial accumulator does. -/
lemma names_ne_empty_foldl : ∀ (fs : List Fragment) (acc : List Doctor),
    (∀ d ∈ acc, d.name ≠ "") → ∀ d ∈ fs.foldl extractStep acc, d.name ≠ "" := by
  intro fs
  induction fs with
  | nil => intro acc hacc d hd; exact hacc d hd
  | cons f fs ih =>
    intro acc hacc d hd
    refine ih (extractStep acc f) ?_ d hd
    intro x hx
    unfold extractStep at hx
    cases hone : extractOne f with
    | none => rw [hone] at hx; exact hacc x hx
    | some c =>
      rw [hone] at hx
      rcases mem_dedupStep acc c x hx with h' | ⟨rfl, hne⟩
      · exact hacc x h'
      · exact hne

/-- Every record returned by `extract_doctor_info` has a non-empty name. -/
lemma extract_names_ne_empty (fs : List Fragment) :
    ∀ d ∈ extract_doctor_info fs, d.name ≠ "" :=
  names_ne_empty_foldl fs [] (by intro d hd; exact absurd hd (by simp))

/-- `keepFirstByName` only inspects membership in `seen`. -/
lemma keepFirstByName_congr : ∀ (ds : List Doctor) (s₁ s₂ : List String),
    (∀ a, a ∈ s₁ ↔ a ∈ s₂) → keepFirstByName s₁ ds = keepFirstByName s₂ ds := by
  intro ds
  induction ds with
  | nil => intro s₁ s₂ _; rfl
  | cons d rest ih =>
    intro s₁ s₂ hmem
    unfold keepFirstByName
    by_cases hd : d.name ≠ "" ∧ d.name ∉ s₁
    · rw [if_pos hd, if_pos ⟨hd.1, fun hc => hd.2 ((hmem d.name).mpr hc)⟩]
      refine congrArg _ (ih _ _ ?_)
      intro a
      constructor
      · intro ha
        rcases List.mem_cons.mp ha with h | h
        · exact List.mem_cons.mpr (Or.inl h)
        · exact List.mem_cons.mpr (Or.inr ((hmem a).mp h))
      · intro ha
        rcases List.mem_cons.mp ha with h | h
        · exact List.mem_cons.mpr (Or.inl h)
        · exact List.mem_cons.mpr (Or.inr ((hmem a).mpr h))
    · rw [if_neg hd, if_neg (fun hc => hd ⟨hc.1, fun hm => hc.2 ((hmem d.name).mp hm)⟩)]
      exact ih _ _ hmem

/-- Unfolding equation for `dedupStep` when the candidate is kept. -/
lemma dedupStep_pos (acc : List Doctor) (d : Doctor)
    (h : d.name ≠ "" ∧ d.name ∉ acc.map Doctor.name) :
    dedupStep acc d = acc ++ [d] := by
  unfold dedupStep; rw [if_pos h]

/-- Unfolding equation for `dedupStep` when the candidate is dropped. -/
lemma dedupStep_neg (acc : List Doctor) (d : Doctor)
    (h : ¬ (d.name ≠ "" ∧ d.name ∉ acc.map Doctor.name)) :
    dedupStep acc d = acc := by
  unfold dedupStep; rw [if_neg h]

/-- The dedup loop over already-built candidates, with accumulator `acc`,
appends exactly the candidates kept by `keepFirstByName` seeded with the
accumulated names. -/
lemma foldl_dedupStep_eq_keepFirst : ∀ (ds : List Doctor) (acc : List Doctor),
    ds.foldl dedupStep acc = acc ++ keepFirstByName (acc.map Doctor.name) ds := by
  intro ds
  induction ds with
  | nil => intro acc; simp [keepFirstByName]
  | cons d rest ih =>
    intro acc
    rw [List.foldl_cons]
    by_cases hd : d.name ≠ "" ∧ d.name ∉ acc.map Doctor.name
    · rw [dedupStep_pos acc d hd, ih (acc ++ [d])]
      have hseen : keepFirstByName ((acc ++ [d]).map Doctor.name) rest
          = keepFirstByName (d.name :: acc.map Doctor.name) rest := by
        refine keepFirstByName_congr rest _ _ ?_
        intro a
        simp [or_comm]
      have hk : keepFirstByName (acc.map Doctor.name) (d :: rest)
          = d :: keepFirstByName (d.name :: acc.map Doctor.name) rest := by
        simp only [keepFirstByName]
        rw [if_pos hd]
      rw [hseen, hk, List.append_assoc, List.singleton_append]
    · rw [dedupStep_neg acc d hd, ih acc]
      have hk : keepFirstByName (acc.map Doctor.name) (d :: rest)
          = keepFirstByName (acc.map Doctor.name) rest := by
        simp only [keepFirstByName]
        rw [if_neg hd]
      rw [hk]

/-- The extraction loop over fragments equals the dedup loop over the
surviving candidate records. -/
lemma foldl_extractStep_eq : ∀ (fs : List Fragment) (acc : List Doctor),
    fs.foldl extractStep acc = (candidates fs).foldl dedupStep acc := by
  intro fs
  induction fs with
  | nil => intro acc; rfl
  | cons f fs ih =>
    intro acc
    rw [List.foldl_cons]
    unfold candidates at *
    rw [List.filterMap_cons]
    cases hone : extractOne f with
    | none =>
      have : extractStep acc f = acc := by unfold extractStep; rw [hone]
      rw [this, ih acc]
    | some d =>
      have : extractStep acc f = dedupStep acc d := by unfold extractStep; rw [hone]
      rw [this, List.foldl_cons, ih (dedupStep acc d)]

/-- `extract_doctor_info` is the first-occurrence-of-each-non-empty-name
restriction of the candidate records. -/
lemma extract_eq_dedupFirstNonEmpty (fs : List Fragment) :
    extract_doctor_info fs = dedupFirstNonEmptyByName (candidates fs) := by
  unfold extract_doctor_info dedupFirstNonEmptyByName
  rw [foldl_extractStep_eq fs [], foldl_dedupStep_eq_keepFirst (candidates fs) []]
  simp

/-- When no name is empty, none is in `seen`, and the names are distinct,
`keepFirstByName` keeps everything. -/
lemma keepFirstByName_of_nodup : ∀ (ds : List Doctor) (seen : List String),
    (∀ d ∈ ds, d.name ≠ "") → (ds.map Doctor.name).Nodup →
    (∀ d ∈ ds, d.name ∉ seen) → keepFirstByName seen ds = ds := by
  intro ds
  induction ds with
  | nil => intro seen _ _ _; rfl
  | cons d rest ih =>
    intro seen hne hnodup hseen
    have hd : d.name ≠ "" ∧ d.name ∉ seen :=
      ⟨hne d (List.mem_cons_self d rest), hseen d (List.mem_cons_self d rest)⟩
    have hk : keepFirstByName seen (d :: rest)
        = d :: keepFirstByName (d.name :: seen) rest := by
      simp only [keepFirstByName]
      rw [if_pos hd]
    rw [hk]
    refine congrArg _ (ih (d.name :: seen) ?_ ?_ ?_)
    · intro x hx; exact hne x (List.mem_cons_of_mem d hx)
    · exact (List.nodup_cons.mp (by simpa using hnodup)).2
    · intro x hx
      intro hmem
      rcases List.mem_cons.mp hmem with h | h
      · have : d.name ∉ rest.map Doctor.name := (List.nodup_cons.mp (by simpa using hnodup)).1
        exact this (h ▸ List.mem_map_of_mem Doctor.name hx)
      · exact hseen x (List.mem_cons_of_mem d hx) h

/-! ### Helper lemmas: the phone partition -/

lemma mem_firstOccurAux (l : List String) : ∀ (acc : List String) (x : String),
    (x ∈ l.foldl (fun acc p => if p ∈ acc then acc else acc ++ [p]) acc) ↔
      (x ∈ acc ∨ x ∈ l) := by
  induction l with
  | nil => intro acc x; simp
  | cons p rest ih =>
    intro acc x
    rw [List.foldl_cons]
    by_cases hp : p ∈ acc
    · rw [if_pos hp, ih acc x]
      constructor
      · rintro (h | h)
        · exact Or.inl h
        · exact Or.inr (List.mem_cons_of_mem p h)
      · rintro (h | h)
        · exact Or.inl h
        · rcases List.mem_cons.mp h with rfl | h
          · exact Or.inl hp
          · exact Or.inr h
    · rw [if_neg hp, ih (acc ++ [p]) x]
      constructor
      · rintro (h | h)
        · rcases List.mem_append.mp h with h | h
          · exact Or.inl h
          · exact Or.inr (List.mem_cons.mpr (Or.inl (List.mem_singleton.mp h)))
        · exact Or.inr (List.mem_cons_of_mem p h)
      · rintro (h | h)
        · exact Or.inl (List.mem_append.mpr (Or.inl h))
        · rcases List.mem_cons.mp h with rfl | h
          · exact Or.inl (List.mem_append.mpr (Or.inr (List.mem_singleton.mpr rfl)))
          · exact Or.inr h

lemma mem_firstOccur (l : List String) (x : String) :
    x ∈ firstOccur l ↔ x ∈ l := by
  unfold firstOccur
  rw [mem_firstOccurAux l [] x]
  simp

lemma nodup_firstOccurAux (l : List String) : ∀ (acc : List String),
    acc.Nodup → (l.foldl (fun acc p => if p ∈ acc then acc else acc ++ [p]) acc).Nodup := by
  induction l with
  | nil => intro acc h; exact h
  | cons p rest ih =>
    intro acc hacc
    rw [List.foldl_cons]
    by_cases hp : p ∈ acc
    · rw [if_pos hp]; exact ih acc hacc
    · rw [if_neg hp]
      refine ih (acc ++ [p]) ?_
      simpa using List.Nodup.concat hp hacc

lemma nodup_firstOccur (l : List String) : (firstOccur l).Nodup :=
  nodup_firstOccurAux l [] List.nodup_nil

lemma firstOccur_append_singleton (l : List String) (p : String) :
    firstOccur (l ++ [p]) =
      if p ∈ firstOccur l then firstOccur l else firstOccur l ++ [p] := by
  unfold firstOccur
  rw [List.foldl_append]
  rfl

/-- Inserting under an existing (unique) key appends to that key's group
and leaves every other group alone. -/
lemma insertPhone_map_mem : ∀ (keys : List String) (g : String → List Doctor)
    (p : String) (d : Doctor), keys.Nodup → p ∈ keys →
    insertPhone (keys.map (fun q => (q, g q))) p d =
      keys.map (fun q => (q, g q ++ if q = p then [d] else [])) := by
  intro keys
  induction keys with
  | nil => intro g p d _ hmem; exact absurd hmem (by simp)
  | cons k rest ih =>
    intro g p d hnodup hmem
    rw [List.map_cons, List.map_cons]
    unfold insertPhone
    by_cases hk : k = p
    · rw [if_pos hk, hk, if_pos rfl]
      refine congrArg₂ _ rfl ?_
      refine (List.map_congr_left ?_).symm
      intro q hq
      have hqp : q ≠ p := by
        intro hqe
        have hknotin : k ∉ rest := (List.nodup_cons.mp hnodup).1
        exact hknotin (by rw [hk, ← hqe]; exact hq)
      rw [if_neg hqp, List.append_nil]
    · simp only [if_neg hk, List.append_nil]
      refine congrArg _ ?_
      refine ih g p d (List.nodup_cons.mp hnodup).2 ?_
      rcases List.mem_cons.mp hmem with h | h
      · exact absurd h.symm hk
      · exact h

/-- Inserting under a fresh key appends a new singleton group at the
end. -/
lemma insertPhone_map_not_mem : ∀ (keys : List String) (g : String → List Doctor)
    (p : String) (d : Doctor), p ∉ keys →
    insertPhone (keys.map (fun q => (q, g q))) p d =
      keys.map (fun q => (q, g q)) ++ [(p, [d])] := by
  intro keys
  induction keys with
  | nil => intro g p d _; rfl
  | cons k rest ih =>
    intro g p d hmem
    rw [List.map_cons]
    unfold insertPhone
    have hk : k ≠ p := fun h => hmem (List.mem_cons.mpr (Or.inl h.symm))
    rw [if_neg hk, List.cons_append]
    refine congrArg _ ?_
    exact ih g p d (fun h => hmem (List.mem_cons_of_mem k h))

/-- Appending one record to the input extends each group by at most that
record. -/
lemma groupFor_append (keyOf : Doctor → Option String) (ds : List Doctor)
    (d : Doctor) (p : String) :
    groupFor keyOf (ds ++ [d]) p =
      groupFor keyOf ds p ++ (if keyOf d = some p then [d] else []) := by
  unfold groupFor
  rw [List.filter_append]
  refine congrArg _ ?_
  by_cases h : keyOf d = some p
  · rw [if_pos h]
    simp [h]
  · rw [if_neg h]
    simp [h]

/-- A key that never occurs has an empty group. -/
lemma groupFor_nil_of_not_mem (keyOf : Doctor → Option String)
    (ds : List Doctor) (p : String) (h : p ∉ ds.filterMap keyOf) :
    groupFor keyOf ds p = [] := by
  unfold groupFor
  rw [List.filter_eq_nil_iff]
  intro d hd
  simp only [decide_eq_true_eq]
  intro hk
  exact h (List.mem_filterMap.mpr ⟨d, hd, hk⟩)

/-- `phoneStep` skips exactly the records whose phone is not truthy. -/
lemma phoneStep_key_none (m : List (String × List Doctor)) (d : Doctor)
    (h : phoneKeyTruthy d = none) : phoneStep m d = m := by
  cases hd : d.phone with
  | none => simp [phoneStep, hd]
  | some p =>
    have hp : ¬ p ≠ "" := by
      intro hp
      have h' := h
      simp [phoneKeyTruthy, hd, hp] at h'
    simp [phoneStep, hd, hp]

/-- `phoneStep` groups exactly the records whose phone is truthy. -/
lemma phoneStep_key_some (m : List (String × List Doctor)) (d : Doctor)
    (p : String) (h : phoneKeyTruthy d = some p) :
    phoneStep m d = insertPhone m p d := by
  cases hd : d.phone with
  | none => simp [phoneKeyTruthy, hd] at h
  | some q =>
    by_cases hq : q ≠ ""
    · have hqp : q = p := by simpa [phoneKeyTruthy, hd, hq] using h
      subst hqp
      simp [phoneStep, hd, hq]
    · simp [phoneKeyTruthy, hd, hq] at h

/-- The phone key is truthy exactly for the records `phoneStep` groups,
so `filterMap phoneKeyTruthy` collects the grouped phone values. -/
lemma phoneMap_eq_specPartition : ∀ (ds : List Doctor),
    phoneMap ds = specPartitionBy phoneKeyTruthy ds := by
  intro ds
  induction ds using List.reverseRecOn with
  | nil => rfl
  | append_singleton ds d ih =>
    unfold phoneMap at *
    rw [List.foldl_append, List.foldl_cons, List.foldl_nil, ih]
    unfold specPartitionBy
    rw [List.filterMap_append]
    cases hkey : phoneKeyTruthy d with
    | none =>
      rw [phoneStep_key_none _ _ hkey]
      have hfm : List.filterMap phoneKeyTruthy [d] = [] := by
        simp [hkey]
      rw [hfm, List.append_nil]
      refine List.map_congr_left ?_
      intro p _
      rw [groupFor_append phoneKeyTruthy ds d p]
      rw [if_neg (by rw [hkey]; exact fun h => Option.noConfusion h), List.append_nil]
    | some p =>
      rw [phoneStep_key_some _ _ p hkey]
      have hfm : List.filterMap phoneKeyTruthy [d] = [p] := by
        simp [hkey]
      rw [hfm, firstOccur_append_singleton]
      by_cases hp : p ∈ firstOccur (ds.filterMap phoneKeyTruthy)
      · rw [if_pos hp]
        rw [insertPhone_map_mem _ _ p d (nodup_firstOccur _) hp]
        refine List.map_congr_left ?_
        intro q _
        rw [groupFor_append phoneKeyTruthy ds d q]
        refine congrArg₂ _ rfl (congrArg _ ?_)
        by_cases hqp : q = p
        · rw [if_pos hqp, if_pos (by rw [hkey, hqp])]
        · rw [if_neg hqp, if_neg (by rw [hkey]; intro h; exact hqp (Option.some_injective _ h).symm)]
      · rw [if_neg hp]
        rw [insertPhone_map_not_mem _ _ p d hp]
        rw [List.map_append, List.map_cons, List.map_nil]
        refine congrArg₂ _ ?_ ?_
        · refine List.map_congr_left ?_
          intro q hq
          rw [groupFor_append phoneKeyTruthy ds d q]
          have hqp : q ≠ p := fun h => hp (h ▸ hq)
          rw [if_neg (by rw [hkey]; intro h; exact hqp (Option.some_injective _ h).symm)]
          rw [List.append_nil]
        · refine congrArg₂ _ (congrArg₂ _ rfl ?_) rfl
          rw [groupFor_append phoneKeyTruthy ds d p]
          rw [groupFor_nil_of_not_mem phoneKeyTruthy ds p
            (fun h => hp ((mem_firstOccur _ p).mpr h))]
          rw [if_pos hkey, List.nil_append]

/-- The filtered shared-phone groups agree with the spec-worded ones. -/
lemma sharedPhoneGroupsOf_eq_spec (ds : List Doctor) :
    sharedPhoneGroupsOf ds = specSharedGroups ds := by
  unfold sharedPhoneGroupsOf specSharedGroups
  rw [phoneMap_eq_specPartition ds]
  refine List.filter_congr ?_
  intro g _
  rw [decide_eq_decide]
  omega

/-! ### Helper lemmas: the location composite and the aggregator -/

/-- Unfolding equation: facility element missing. -/
lemma extractLocation_facility_none (f : Fragment) (h : f.facilityText = none) :
    extractLocation f = none := by
  simp [extractLocation, h]

/-- Unfolding equation: facility found, address element missing. -/
lemma extractLocation_address_none (f : Fragment) (ft : String)
    (hf : f.facilityText = some ft) (ha : f.addressText = none) :
    extractLocation f = none := by
  simp [extractLocation, hf, ha]

/-- Unfolding equation: both elements found — the truthiness chain over
the stripped texts. -/
lemma extractLocation_both (f : Fragment) (ft ad : String)
    (hf : f.facilityText = some ft) (ha : f.addressText = some ad) :
    extractLocation f =
      (if pyStrip ft ≠ "" ∧ pyStrip ad ≠ "" then
        some (pyStrip ft ++ ": " ++ pyStrip ad)
      else if pyStrip ad ≠ "" then some (pyStrip ad)
      else if pyStrip ft ≠ "" then some (pyStrip ft)
      else none) := by
  unfold extractLocation
  rw [hf, ha]

/-- `analyze_doctors` on the empty record set stops with the
`ZeroDivisionError` raised by the rated-percentage logging line. -/
lemma analyze_doctors_nil :
    analyze_doctors ([] : List Doctor) = Except.error "ZeroDivisionError" := rfl

/-- `analyze_doctors` on a non-empty record set returns the report. -/
lemma analyze_doctors_ok (ds : List Doctor) (h : ds ≠ []) :
    analyze_doctors ds = Except.ok
      { total_doctors := ds.length,
        doctors_with_ratings := (ds.filter (fun d => ratingTruthyPos d.rating)).length,
        shared_phone_numbers := (sharedPhoneGroupsOf ds).length,
        doctors_with_multiple_locations := (ds.filter (fun d => d.has_multiple_locations)).length,
        shared_phone_groups := (sharedPhoneGroupsOf ds).map (fun g => (g.1, g.2.map toEntry)),
        multi_location_records := (ds.filter (fun d => d.has_multiple_locations)).map toEntry } := by
  have h0 : ((ds.length : Nat) : Rat) ≠ 0 := by
    rw [Nat.cast_ne_zero]
    intro hlen
    exact h (List.length_eq_zero.mp hlen)
  unfold analyze_doctors pyDiv
  dsimp only
  rw [if_neg h0, if_neg h0]
  rfl

/-! ### Claim theorems -/

/-- Claim C1 (counterexample).  The claim says a fragment missing every
optional sub-element (URL, specialty, image, location, phone, badges,
rating) still yields a record carrying its name.  `fragNameOnly` is such a
fragment, but the unguarded URL lookup raises and the whole fragment is
discarded: `extract_doctor_info` returns no record at all. -/
theorem C1_counterexample : extract_doctor_info [fragNameOnly] = [] := by decide

/-- Claim C1 (amended).  Only the guarded sub-elements (image, location,
multi-location, phone, badges, rating) have independent fallbacks: each is
a function of its own markup alone, and a record is produced with those
fields defaulted whenever the three unguarded lookups (name, URL,
specialty) succeed.  A failure of any unguarded lookup discards the whole
fragment instead of falling back. -/
theorem C1_fallbacks_amended :
    (∀ f : Fragment,
      (f.nameText = none ∨ f.urlHref = none ∨ f.specialtyText = none) →
      extractOne f = none) ∧
    (∀ (f : Fragment) (d : Doctor), extractOne f = some d →
      d.image_url = f.imageSrc ∧
      d.location = extractLocation f ∧
      d.phone = f.phoneHref.map (fun h => pyReplace h "tel:" "") ∧
      d.has_multiple_locations = extractMultiLoc f ∧
      (d.is_employed_provider, d.is_accepting_new_patients) = extractBadges f.badgeTexts ∧
      (d.rating, d.rating_count) = extractRating f) ∧
    (∀ nt u st : String,
      extractOne
        { nameText := some nt, urlHref := some u, specialtyText := some st,
          imageSrc := none, multiLocationText := none, facilityText := none,
          addressText := none, phoneHref := none, badgeTexts := [],
          ratingNode := none } =
      some { name := pyStrip nt, specialty := some (pyStrip st),
             profile_url := some (normalizeUrl u), image_url := none,
             location := none, phone := none, has_multiple_locations := false,
             is_employed_provider := false, is_accepting_new_patients := false,
             rating := none, rating_count := none }) := by
  refine ⟨extractOne_eq_none, ?_, ?_⟩
  · intro f d h
    obtain ⟨nt, u, st, hn, hu, hs, rfl⟩ := extractOne_inv f d h
    exact ⟨rfl, rfl, rfl, rfl, rfl, rfl⟩
  · intro nt u st
    rfl

/-- Claim C1 (witness). -/
theorem C1_witness :
    extractOne fragNameOnly = none ∧ recFull.image_url = fragFull.imageSrc :=
  ⟨C1_fallbacks_amended.1 fragNameOnly (Or.inr (Or.inl rfl)),
   (C1_fallbacks_amended.2.1 fragFull recFull (by decide)).1⟩

/-- Claim C2 (counterexample).  The claim says aggregating the empty
record set returns `totalCount = 0` without raising; in fact the
rated-percentage logging line divides by the zero total and
`analyze_doctors` stops with a `ZeroDivisionError`. -/
theorem C2_counterexample :
    analyze_doctors ([] : List Doctor) = Except.error "ZeroDivisionError" ∧
    ¬ ∃ r : Report, analyze_doctors ([] : List Doctor) = Except.ok r := by
  refine ⟨rfl, ?_⟩
  rintro ⟨r, hr⟩
  rw [analyze_doctors_nil] at hr
  exact Except.noConfusion hr

/-- Claim C2 (amended).  There is no zero-division guard: aggregation
raises `ZeroDivisionError` exactly on the empty record set, and on any
non-empty set it returns a report whose `total_doctors` is the record
count. -/
theorem C2_empty_raises_amended :
    (∀ ds : List Doctor,
      analyze_doctors ds = Except.error "ZeroDivisionError" ↔ ds = []) ∧
    (∀ ds : List Doctor, ds ≠ [] →
      ∃ r : Report, analyze_doctors ds = Except.ok r ∧ r.total_doctors = ds.length) := by
  constructor
  · intro ds
    constructor
    · intro herr
      by_contra hne
      rw [analyze_doctors_ok ds hne] at herr
      exact Except.noConfusion herr
    · intro h
      subst h
      rfl
  · intro ds hne
    exact ⟨_, analyze_doctors_ok ds hne, rfl⟩

/-- Claim C2 (witness). -/
theorem C2_witness :
    (analyze_doctors ([] : List Doctor) = Except.error "ZeroDivisionError") ∧
    (∃ r : Report, analyze_doctors [docP1] = Except.ok r ∧ r.total_doctors = 1) :=
  ⟨(C2_empty_raises_amended.1 []).mpr rfl,
   C2_empty_raises_amended.2 [docP1] (by simp)⟩

/-- Claim C3 (counterexample).  The claim says any parse exception in the
rating chain leaves both fields absent.  `fragRatingPartial` has a parsed
rating value but no count node: the count lookup raises after `rating`
was assigned, and the record keeps `rating = 4` with `rating_count`
absent — a partial result. -/
theorem C3_counterexample :
    (extract_doctor_info [fragRatingPartial]).map (fun d => (d.rating, d.rating_count)) =
      [(some 4, none)] := by decide

/-- Claim C3 (amended).  A failure at the container lookup or the value
stage (value-node lookup or `float()`) leaves both fields absent, and an
absent rating forces an absent count; but a failure at the count stage
after a parsed value keeps the rating and drops only the count, so
rating-present/count-absent partial results occur. -/
theorem C3_rating_chain_amended :
    (∀ (f : Fragment) (d : Doctor), extractOne f = some d →
      (d.rating, d.rating_count) = extractRating f ∧
      (d.rating = none → d.rating_count = none)) ∧
    (∀ f : Fragment, f.ratingNode = none → extractRating f = (none, none)) ∧
    (∀ (f : Fragment) (rn : RatingNode), f.ratingNode = some rn →
      parseRatingValue rn = none → extractRating f = (none, none)) ∧
    (∀ (f : Fragment) (rn : RatingNode) (r : Rat), f.ratingNode = some rn →
      parseRatingValue rn = some r →
      extractRating f = (some r, parseRatingCount rn)) := by
  refine ⟨?_, extractRating_node_none, extractRating_value_none, extractRating_value_some⟩
  intro f d h
  obtain ⟨nt, u, st, hn, hu, hs, rfl⟩ := extractOne_inv f d h
  exact ⟨rfl, extractRating_count_none_of_rating_none f⟩

/-- Claim C3 (witness). -/
theorem C3_witness :
    extractRating fragBase = (none, none) ∧
    (recFull.rating, recFull.rating_count) = extractRating fragFull :=
  ⟨C3_rating_chain_amended.2.1 fragBase rfl,
   (C3_rating_chain_amended.1 fragFull recFull (by decide)).1⟩

/-- Claim C4 (counterexample).  The claim says a name lookup failure
substitutes the sentinel "Unknown Doctor" rather than failing the record.
`fragNoName` is fully populated except for its name element; the
unguarded name lookup raises and the fragment is discarded — no
sentinel-named record is produced. -/
theorem C4_counterexample : extract_doctor_info [fragNoName] = [] := by decide

/-- Claim C4 (amended).  Every returned record's name is non-empty, and
is always the trimmed text of a found name element; on name lookup
failure the whole fragment is discarded, so the "Unknown Doctor" sentinel
(dead code behind a lookup that raises instead of returning null) is
never substituted. -/
theorem C4_name_amended :
    (∀ f : Fragment, f.nameText = none → extractOne f = none) ∧
    (∀ fs : List Fragment, ∀ d ∈ extract_doctor_info fs, d.name ≠ "") ∧
    (∀ (f : Fragment) (d : Doctor), extractOne f = some d →
      ∃ nt, f.nameText = some nt ∧ d.name = pyStrip nt) := by
  refine ⟨fun f h => extractOne_eq_none f (Or.inl h), extract_names_ne_empty, ?_⟩
  intro f d h
  obtain ⟨nt, u, st, hn, hu, hs, rfl⟩ := extractOne_inv f d h
  exact ⟨nt, hn, rfl⟩

/-- Claim C4 (witness). -/
theorem C4_witness : extractOne fragNoName = none ∧ recBase.name ≠ "" :=
  ⟨C4_name_amended.1 fragNoName rfl,
   C4_name_amended.2.1 [fragBase] recBase (by decide)⟩

/-- Claim C5 (counterexample).  The claim says a missing facility element
still yields the street address alone.  `fragAddrOnly` has a street
address but no facility element; the facility lookup raises before the
address is ever read, and the produced record's location is absent. -/
theorem C5_counterexample :
    fragAddrOnly.facilityText = none ∧
    fragAddrOnly.addressText = some "123 Main St" ∧
    (extract_doctor_info [fragAddrOnly]).map Doctor.location = [none] :=
  ⟨rfl, rfl, by decide⟩

/-- Claim C5 (amended).  The location never raises and is always the
value of the guarded composite; but the graceful degradation applies only
to present-and-empty texts: if either the facility or the address element
is missing, the location is absent (a missing facility suppresses a
present street address), and only when both elements are found is the
"<facility>: <address>" / single-component chain evaluated. -/
theorem C5_location_amended :
    (∀ (f : Fragment) (d : Doctor), extractOne f = some d →
      d.location = extractLocation f) ∧
    (∀ f : Fragment, f.facilityText = none ∨ f.addressText = none →
      extractLocation f = none) ∧
    (∀ (f : Fragment) (ft ad : String), f.facilityText = some ft →
      f.addressText = some ad →
      extractLocation f =
        (if pyStrip ft ≠ "" ∧ pyStrip ad ≠ "" then
          some (pyStrip ft ++ ": " ++ pyStrip ad)
        else if pyStrip ad ≠ "" then some (pyStrip ad)
        else if pyStrip ft ≠ "" then some (pyStrip ft)
        else none)) := by
  refine ⟨?_, ?_, extractLocation_both⟩
  · intro f d h
    obtain ⟨nt, u, st, hn, hu, hs, rfl⟩ := extractOne_inv f d h
    rfl
  · intro f h
    rcases h with h | h
    · exact extractLocation_facility_none f h
    · cases hf : f.facilityText with
      | none => exact extractLocation_facility_none f hf
      | some ft => exact extractLocation_address_none f ft hf h

/-- Claim C5 (witness). -/
theorem C5_witness :
    extractLocation fragAddrOnly = none ∧
    recFull.location = extractLocation fragFull :=
  ⟨C5_location_amended.2.1 fragAddrOnly (Or.inl rfl),
   C5_location_amended.1 fragFull recFull (by decide)⟩

/-- Claim C6 (counterexample).  The claim says the output is the input
restricted to first occurrences of each exact name.  `fragBlankName`
yields a candidate whose trimmed name is empty; it is the first (and
only) occurrence of that name, yet the batch drops it, so the output
differs from the claimed restriction. -/
theorem C6_counterexample :
    extract_doctor_info [fragBlankName] ≠
      dedupFirstByName (candidates [fragBlankName]) := by decide

/-- Claim C6 (amended).  The output equals the candidates restricted to
first occurrences of each exact (case-sensitive, post-trim) name *among
candidates with a non-empty name* — empty-named candidates are dropped
even on first occurrence; for inputs whose candidates carry distinct
non-empty names the output equals the candidate sequence in input
order. -/
theorem C6_dedup_amended :
    (∀ fs : List Fragment,
      extract_doctor_info fs = dedupFirstNonEmptyByName (candidates fs)) ∧
    (∀ fs : List Fragment, (∀ d ∈ candidates fs, d.name ≠ "") →
      ((candidates fs).map Doctor.name).Nodup →
      extract_doctor_info fs = candidates fs) := by
  refine ⟨extract_eq_dedupFirstNonEmpty, ?_⟩
  intro fs hne hnodup
  rw [extract_eq_dedupFirstNonEmpty fs]
  unfold dedupFirstNonEmptyByName
  refine keepFirstByName_of_nodup (candidates fs) [] hne hnodup ?_
  intro d _
  simp

/-- Claim C6 (witness). -/
theorem C6_witness :
    extract_doctor_info [fragFull, fragBase] = candidates [fragFull, fragBase] :=
  C6_dedup_amended.2 [fragFull, fragBase] (by decide) (by decide)

/-- Claim C7 (counterexample).  The claim says a rating-value text
parsing outside [0, 5] yields an absent rating.  `fragRatingHigh` carries
"7 / 5"; the parsed 7 exceeds 5 yet is stored in the record. -/
theorem C7_counterexample :
    (extract_doctor_info [fragRatingHigh]).map Doctor.rating = [some 7] ∧
    ¬ ((7 : Rat) ≤ 5) := ⟨by decide, by decide⟩

/-- Claim C7 (amended).  The source performs no range validation: any
numerically parsable rating-value text is passed through into the record
(including values below 0 or above 5), and only malformed text (or a
missing node) yields absence. -/
theorem C7_rating_range_amended :
    (∀ (f : Fragment) (d : Doctor) (rn : RatingNode) (r : Rat),
      extractOne f = some d → f.ratingNode = some rn →
      parseRatingValue rn = some r → d.rating = some r) ∧
    (∀ (f : Fragment) (d : Doctor) (rn : RatingNode),
      extractOne f = some d → f.ratingNode = some rn →
      parseRatingValue rn = none → d.rating = none) := by
  constructor
  · intro f d rn r h hrn hv
    obtain ⟨nt, u, st, hn, hu, hs, rfl⟩ := extractOne_inv f d h
    show (extractRating f).1 = some r
    rw [extractRating_value_some f rn r hrn hv]
  · intro f d rn h hrn hv
    obtain ⟨nt, u, st, hn, hu, hs, rfl⟩ := extractOne_inv f d h
    show (extractRating f).1 = none
    rw [extractRating_value_none f rn hrn hv]

/-- Claim C7 (witness): the out-of-range value -2 is passed through. -/
theorem C7_witness :
    recRatingNeg.rating = some (-2) ∧ ¬ ((0 : Rat) ≤ -2) :=
  ⟨C7_rating_range_amended.1 fragRatingNeg recRatingNeg
      { valueText := some "-2 / 5", countText := some "(9)" } (-2)
      (by decide) rfl (by decide),
   by decide⟩

/-- Claim C8 (counterexample).  The claim partitions by phone value
ignoring only records with an *absent* phone, so two records sharing the
present-but-empty phone "" should form a group of 2; the source's
truthiness test also ignores empty phones and produces no group. -/
theorem C8_counterexample :
    sharedPhoneGroupsOf [docE1, docE2] ≠ claimSharedGroups [docE1, docE2] ∧
    sharedPhoneGroupsOf [docE1, docE2] = [] ∧
    claimSharedGroups [docE1, docE2] = [("", [docE1, docE2])] :=
  ⟨by decide, by decide, by decide⟩

/-- Claim C8 (amended).  `sharedPhoneGroups` is the partition of the
records by phone value ignoring records whose phone is absent *or empty*,
retaining only groups with at least 2 members, keyed by phone value in
first-encountered order; on the worked example it contains exactly the
"555-1111" group with its two records. -/
theorem C8_shared_phones_amended :
    (∀ ds : List Doctor, sharedPhoneGroupsOf ds = specSharedGroups ds) ∧
    sharedPhoneGroupsOf [docP1, docP2, docP3] = [("555-1111", [docP1, docP2])] :=
  ⟨sharedPhoneGroupsOf_eq_spec, by decide⟩

/-- Claim C9 (confirmed).  The verbatim-duplicated badge blocks are
equivalent to a single pass: the second block resets both flags and
recomputes them over the same badge elements, so the produced record's
flags equal a single execution's result. -/
theorem C9_badge_blocks_single_pass :
    (∀ texts : List String, extractBadges texts = extractBadgesSingle texts) ∧
    (∀ (f : Fragment) (d : Doctor), extractOne f = some d →
      (d.is_employed_provider, d.is_accepting_new_patients) =
        extractBadgesSingle f.badgeTexts) := by
  refine ⟨extractBadges_eq_single, ?_⟩
  intro f d h
  obtain ⟨nt, u, st, hn, hu, hs, rfl⟩ := extractOne_inv f d h
  rfl

/-- Claim C9 (witness). -/
theorem C9_witness :
    extractBadges ["Employed Provider"] = extractBadgesSingle ["Employed Provider"] ∧
    (recFull.is_employed_provider, recFull.is_accepting_new_patients) =
      extractBadgesSingle fragFull.badgeTexts :=
  ⟨C9_badge_blocks_single_pass.1 ["Employed Provider"],
   C9_badge_blocks_single_pass.2 fragFull recFull (by decide)⟩

/-- Claim C10 (confirmed).  Every record returned by the extractor has a
non-empty (post-trim) name: the dedup guard `if name and ...` silently
drops any candidate whose parsed name is empty. -/
theorem C10_names_nonempty :
    ∀ fs : List Fragment, ∀ d ∈ extract_doctor_info fs, d.name ≠ "" :=
  extract_names_ne_empty

/-- Claim C10 (witness). -/
theorem C10_witness :
    recFull ∈ extract_doctor_info [fragFull] ∧ recFull.name ≠ "" :=
  ⟨by decide, C10_names_nonempty [fragFull] recFull (by decide)⟩
